import Mathlib

/-!
Verification of the rule-matching and dispatch core of the
`unit-testing-node` walkthrough.

The embedding follows the JavaScript source:
  * `solutions/01-rule/lib/rule.js` — `Rule`, `Rule.prototype.match`,
    `Rule.prototype.reactionMatches`, `Rule.prototype.channelMatches`;
  * `_pages/components/middleware.md` — `Middleware.prototype.findMatchingRule`
    (the code block shown in the page) and the `Middleware` constructor.

JavaScript conventions captured here:
  * a possibly-absent object field is an `Option`; a field read on a present
    object yields `none` for a missing field (JS `undefined`);
  * reading a property of `undefined` (e.g. `message.item.type` when
    `message.item` is absent) throws a `TypeError`; fallible computations
    therefore live in `Except JsError`;
  * `===` between `undefined` and a string is `false`, so comparisons are
    `Option` equality against `some`;
  * `Array.prototype.indexOf(x) !== -1` on an array of strings is `false`
    when `x` is `undefined`, membership otherwise;
  * `Array.prototype.find` returns the first element on which the callback
    is truthy, `undefined` when there is none, and propagates a throw.
-/

/-- A JavaScript runtime error; the only kind these functions can raise is a
`TypeError` from reading a property of `undefined`. -/
inductive JsError where
  | typeError
deriving DecidableEq, Repr

/-- The `item` member of a `reaction_added` message: `{ type, channel, ts }`,
each field possibly absent. -/
structure Item where
  type : Option String
  channel : Option String
  ts : Option String
deriving DecidableEq, Repr

/-- A raw Slack message object as consumed by the middleware:
`{ type, user, item, reaction, event_ts }`, each field possibly absent. -/
structure Message where
  type : Option String
  user : Option String
  item : Option Item
  reaction : Option String
  event_ts : Option String
deriving DecidableEq, Repr

/-- The slice of `SlackClient` used by `Rule.prototype.match`: the channel
resolver `getChannelByID`. Its argument is the raw `item.channel` value
(possibly `undefined`); a `none` result is the "not found" outcome. -/
structure SlackClient where
  getChannelByID : Option String → Option String

/-- `SlackClient.REACTION_ADDED = 'reaction_added'` from `slack-client.js`. -/
def SlackClient.REACTION_ADDED : String := "reaction_added"

/-- A `Rule` as produced from validated configuration: `reactionName` is
required, `channelNames` optional (`rule.js` reads exactly these two fields). -/
structure Rule where
  reactionName : String
  channelNames : Option (List String)
deriving DecidableEq, Repr

/-- `Rule.prototype.reactionMatches`:
`return message.reaction === this.reactionName;`. -/
def Rule.reactionMatches (this : Rule) (message : Message) : Bool :=
  message.reaction == some this.reactionName

/-- `Rule.prototype.channelMatches`:
`var channels = this.channelNames;
 return channels === undefined ||
   channels.indexOf(slackClient.getChannelByID(message.item.channel)) !== -1;`
The `||` short-circuits: when `channelNames` is `undefined` the right operand
(and with it `message.item.channel`) is never evaluated; otherwise reading
`message.item.channel` throws when `item` is absent, and `indexOf` of a
non-string (`undefined`) in a string array is `-1`. -/
def Rule.channelMatches (this : Rule) (message : Message) (slackClient : SlackClient) :
    Except JsError Bool :=
  match this.channelNames with
  | none => Except.ok true
  | some channels =>
    match message.item with
    | none => Except.error JsError.typeError
    | some item =>
      match slackClient.getChannelByID item.channel with
      | none => Except.ok false
      | some name => Except.ok (channels.contains name)

/-- `Rule.prototype.match`:
`return (this.reactionMatches(message) && this.channelMatches(message, slackClient));`
`&&` short-circuits, so `channelMatches` runs only when the reaction matched. -/
def Rule.«match» (this : Rule) (message : Message) (slackClient : SlackClient) :
    Except JsError Bool :=
  if this.reactionMatches message then this.channelMatches message slackClient
  else Except.ok false

/-- The `Middleware` fields used by `findMatchingRule`; the constructor stores
`config.rules` (promoted to `Rule` objects), `config.successReaction` and the
injected `slackClient`. -/
structure Middleware where
  rules : List Rule
  successReaction : String
  slackClient : SlackClient

/-- `this.rules.find(function(rule) { return rule.match(message, slackClient); })`:
first rule on which `match` is truthy, `undefined` when none, a throw from
`match` propagated. -/
def findRule (rules : List Rule) (message : Message) (slackClient : SlackClient) :
    Except JsError (Option Rule) :=
  match rules with
  | [] => Except.ok none
  | r :: rest =>
    match Rule.«match» r message slackClient with
    | Except.error e => Except.error e
    | Except.ok true => Except.ok (some r)
    | Except.ok false => findRule rest message slackClient

/-- `Middleware.prototype.findMatchingRule`:
`if (message && message.type === SlackClient.REACTION_ADDED &&
     message.item.type === 'message') { return this.rules.find(...); }`
The conjunction short-circuits left to right: a falsy `message` or a `type`
mismatch returns `undefined` before `message.item` is ever read; reading
`message.item.type` throws when `item` is absent. -/
def Middleware.findMatchingRule (this : Middleware) (message : Option Message) :
    Except JsError (Option Rule) :=
  match message with
  | none => Except.ok none
  | some m =>
    if m.type == some SlackClient.REACTION_ADDED then
      match m.item with
      | none => Except.error JsError.typeError
      | some item =>
        if item.type == some "message" then findRule this.rules m this.slackClient
        else Except.ok none
    else Except.ok none

/-! ### The `Rule` constructor as a dynamic-property copy

`function Rule(configRule) { for (var property in configRule) { if
(configRule.hasOwnProperty(property)) { this[property] =
configRule[property]; } } }` copies every own enumerable property of the
configuration object onto the freshly created (own-property-empty) `this`.
To state that, a configuration object is modelled as a JavaScript object:
an ordered list of (property, value) bindings with distinct keys. -/

/-- A configuration value: validated config holds strings (`reactionName`,
`githubRepository`, ...) and string arrays (`channelNames`). -/
inductive JsValue where
  | str : String → JsValue
  | strList : List String → JsValue
deriving DecidableEq, Repr

/-- A JavaScript object, as its ordered own-property list. -/
abbrev JsObj : Type := List (String × JsValue)

/-- Property read: `obj[k]`, `none` for an absent property. -/
def getProp (obj : JsObj) (k : String) : Option JsValue :=
  (obj.find? (fun p => p.1 == k)).map (fun p => p.2)

/-- Property write: `obj[k] = v` overwrites the existing binding in place,
otherwise appends a new one at the end (JS insertion order). -/
def setProp (obj : JsObj) (k : String) (v : JsValue) : JsObj :=
  match obj with
  | [] => [(k, v)]
  | p :: rest => if p.1 == k then (k, v) :: rest else p :: setProp rest k v

/-- The `Rule(configRule)` constructor body: `for (var property in configRule)`
enumerates the own properties in insertion order, `hasOwnProperty` holds for
each of them, and `this[property] = configRule[property]` copies each onto the
initially own-property-empty `this`. -/
def Rule.new (configRule : JsObj) : JsObj :=
  configRule.foldl (fun this p => setProp this p.1 p.2) []

/-! ### State-passing rendering of the matching operations

The bodies of `Rule.prototype.match`, `Rule.prototype.reactionMatches`,
`Rule.prototype.channelMatches` and `Middleware.prototype.findMatchingRule`
contain no assignment to `this`, to the message, or to the rules array; the
faithful state-threading translation therefore returns the objects each
statement leaves behind, and immutability is the theorem that the final
objects equal the initial ones. -/

/-- State-passing `reactionMatches`: result plus the rule and message objects
as the body leaves them. -/
def Rule.reactionMatchesS (this : Rule) (message : Message) :
    Bool × Rule × Message :=
  (this.reactionMatches message, this, message)

/-- State-passing `channelMatches`. -/
def Rule.channelMatchesS (this : Rule) (message : Message)
    (slackClient : SlackClient) : Except JsError Bool × Rule × Message :=
  (this.channelMatches message slackClient, this, message)

/-- State-passing `match`: threads the rule and message through
`reactionMatches` and (when consulted) `channelMatches`. -/
def Rule.matchS (this : Rule) (message : Message) (slackClient : SlackClient) :
    Except JsError Bool × Rule × Message :=
  match this.reactionMatchesS message with
  | (true, r1, m1) => r1.channelMatchesS m1 slackClient
  | (false, r1, m1) => (Except.ok false, r1, m1)

/-- State-passing `rules.find`: threads the message and accumulates the rule
objects each `match` call leaves behind. -/
def findRuleS (rules : List Rule) (message : Message) (slackClient : SlackClient) :
    Except JsError (Option Rule) × List Rule × Message :=
  match rules with
  | [] => (Except.ok none, [], message)
  | r :: rest =>
    match Rule.matchS r message slackClient with
    | (Except.error e, r1, m1) => (Except.error e, r1 :: rest, m1)
    | (Except.ok true, r1, m1) => (Except.ok (some r1), r1 :: rest, m1)
    | (Except.ok false, r1, m1) =>
      match findRuleS rest m1 slackClient with
      | (res, rest1, m2) => (res, r1 :: rest1, m2)

/-- State-passing `findMatchingRule`: result plus the middleware (with the
rule list the scan leaves behind) and the message. -/
def Middleware.findMatchingRuleS (this : Middleware) (message : Option Message) :
    Except JsError (Option Rule) × Middleware × Option Message :=
  match message with
  | none => (Except.ok none, this, none)
  | some m =>
    if m.type == some SlackClient.REACTION_ADDED then
      match m.item with
      | none => (Except.error JsError.typeError, this, some m)
      | some item =>
        if item.type == some "message" then
          match findRuleS this.rules m this.slackClient with
          | (res, rules1, m1) =>
            (res, { this with rules := rules1 }, some m1)
        else (Except.ok none, this, some m)
    else (Except.ok none, this, some m)

/-! ### `Middleware.prototype.execute`

Modelled from the spec: the body of `execute` is not among the sources (the
component page shows only its skeleton); §4.2 of the specification gives the
step sequence, which is embedded here. External collaborators are an
environment of per-event call outcomes; the model records which external
calls `execute` performs, in order, alongside the terminal outcome. -/

/-- Outcomes of the per-event state machine: not-handled, handled, failed
(carrying the external failure unmodified), or a JavaScript error escaping
the rule lookup. -/
inductive Outcome where
  | handled
  | notHandled
  | failed : String → Outcome
  | errored : JsError → Outcome
deriving DecidableEq, Repr

/-- The external calls `execute` can perform (steps 2, 4, 5, 6 of §4.2). -/
inductive ExtCall where
  | getReactions
  | fileIssue
  | addReaction
  | postMessage
deriving DecidableEq, Repr

/-- Modelled from the spec: the outcomes the external collaborators would
return for this event's calls — `getReactions` (MessagingClient), `fileIssue`
(IssueTrackerClient, yielding the issue link), `addReaction` and
`postMessage` (MessagingClient). An `Except.error` is that call failing. -/
structure Env where
  getReactions : Except String (List String)
  fileIssue : Except String String
  addReaction : Except String Unit
  postMessage : Except String Unit

/-- Modelled from the spec: `Middleware.prototype.execute`, steps 1–7 of
§4.2. Resolve the matching rule (none → not handled, nothing performed);
query current reactions; short-circuit as handled when the success reaction
is already present; otherwise file the issue, add the success reaction, post
the link, and signal handled. Any collaborator failure aborts the remaining
steps and surfaces that failure unmodified; each step runs at most once. -/
def Middleware.execute (this : Middleware) (message : Option Message) (env : Env) :
    Outcome × List ExtCall :=
  match this.findMatchingRule message with
  | Except.error e => (Outcome.errored e, [])
  | Except.ok none => (Outcome.notHandled, [])
  | Except.ok (some _) =>
    match env.getReactions with
    | Except.error e => (Outcome.failed e, [ExtCall.getReactions])
    | Except.ok reactions =>
      if this.successReaction ∈ reactions then
        (Outcome.handled, [ExtCall.getReactions])
      else
        match env.fileIssue with
        | Except.error e =>
          (Outcome.failed e, [ExtCall.getReactions, ExtCall.fileIssue])
        | Except.ok _link =>
          match env.addReaction with
          | Except.error e =>
            (Outcome.failed e,
              [ExtCall.getReactions, ExtCall.fileIssue, ExtCall.addReaction])
          | Except.ok _ =>
            match env.postMessage with
            | Except.error e =>
              (Outcome.failed e,
                [ExtCall.getReactions, ExtCall.fileIssue, ExtCall.addReaction,
                  ExtCall.postMessage])
            | Except.ok _ =>
              (Outcome.handled,
                [ExtCall.getReactions, ExtCall.fileIssue, ExtCall.addReaction,
                  ExtCall.postMessage])

/-! ### Concrete fixtures (mirroring the walkthrough's test helpers) -/

/-- A resolver knowing only channel `C1` as `general`. -/
def scEx : SlackClient :=
  ⟨fun c => if c = some "C1" then some "general" else none⟩

/-- A rule with no channel restriction. -/
def ruleEx1 : Rule := ⟨"evergreen_tree", none⟩

/-- A rule restricted to channel `general`. -/
def ruleEx2 : Rule := ⟨"smiley", some ["general"]⟩

/-- A middleware over the two rules above. -/
def mwEx : Middleware := ⟨[ruleEx1, ruleEx2], "heavy_check_mark", scEx⟩

/-- A well-formed `reaction_added` item on channel `C1`. -/
def itemEx : Item := ⟨some "message", some "C1", some "100"⟩

/-- A well-formed `reaction_added` message matching `ruleEx1`. -/
def msgEx : Message :=
  ⟨some "reaction_added", some "U1", some itemEx, some "evergreen_tree", some "100"⟩

/-- An item whose `type` is `file`. -/
def itemFileEx : Item := ⟨some "file", some "C1", some "100"⟩

/-- A `reaction_added` message about a file, not a message. -/
def msgFileEx : Message :=
  ⟨some "reaction_added", some "U1", some itemFileEx, some "evergreen_tree", some "100"⟩

/-- A `reaction_added` message with the `item` field absent. -/
def malformedEx : Message :=
  ⟨some "reaction_added", none, none, some "evergreen_tree", none⟩

/-- An item on a channel the resolver does not know. -/
def itemLostEx : Item := ⟨some "message", some "C999", some "100"⟩

/-- A message reacting with `smiley` on the unknown channel `C999`. -/
def msgLostEx : Message :=
  ⟨some "reaction_added", some "U1", some itemLostEx, some "smiley", some "100"⟩

/-- Collaborator outcomes for an event already carrying the success reaction. -/
def envDoneEx : Env :=
  ⟨Except.ok ["heavy_check_mark"], Except.ok "link", Except.ok (), Except.ok ()⟩

/-- Collaborator outcomes where the reactions query fails. -/
def envFailEx : Env :=
  ⟨Except.error "boom", Except.ok "link", Except.ok (), Except.ok ()⟩

/-! ### Helper lemmas -/

/-- With the message's `item` present, `Rule.match` cannot throw. -/
theorem match_total (r : Rule) (m : Message) (it : Item) (sc : SlackClient)
    (h : m.item = some it) :
    Rule.«match» r m sc = Except.ok true ∨ Rule.«match» r m sc = Except.ok false := by
  cases hc : r.channelNames with
  | none =>
    cases hr : r.reactionMatches m <;>
      simp [Rule.«match», Rule.channelMatches, hr, hc]
  | some cs =>
    cases hg : sc.getChannelByID it.channel with
    | none =>
      cases hr : r.reactionMatches m <;>
        simp [Rule.«match», Rule.channelMatches, hr, hc, h, hg]
    | some name =>
      cases hr : r.reactionMatches m
      · simp [Rule.«match», hr]
      · by_cases hmem : name ∈ cs <;>
          simp [Rule.«match», Rule.channelMatches, hr, hc, h, hg, hmem]

/-- `rules.find` returns `undefined` when every rule fails to match. -/
theorem findRule_eq_none (rules : List Rule) (m : Message) (sc : SlackClient)
    (h : ∀ r ∈ rules, Rule.«match» r m sc = Except.ok false) :
    findRule rules m sc = Except.ok none := by
  induction rules with
  | nil => rfl
  | cons r rest ih =>
    rw [findRule, h r (List.mem_cons_self r rest)]
    exact ih (fun r' hr' => h r' (List.mem_cons_of_mem r hr'))

/-- `rules.find` returns the rule at index `i` when it matches and every rule
before it fails to match. -/
theorem findRule_first (rules : List Rule) (m : Message) (sc : SlackClient)
    (i : Nat) (hlt : i < rules.length)
    (hmatch : Rule.«match» (rules.get ⟨i, hlt⟩) m sc = Except.ok true)
    (hbefore : ∀ r ∈ rules.take i, Rule.«match» r m sc = Except.ok false) :
    findRule rules m sc = Except.ok (some (rules.get ⟨i, hlt⟩)) := by
  induction rules generalizing i with
  | nil => exact absurd hlt (Nat.not_lt_zero i)
  | cons r rest ih =>
    cases i with
    | zero =>
      rw [findRule]
      rw [show (r :: rest).get ⟨0, hlt⟩ = r from rfl] at hmatch ⊢
      rw [hmatch]
    | succ i =>
      have hr : Rule.«match» r m sc = Except.ok false := by
        apply hbefore
        rw [List.take_succ_cons]
        exact List.mem_cons_self r _
      rw [findRule, hr]
      rw [show (r :: rest).get ⟨i + 1, hlt⟩ = rest.get ⟨i, Nat.lt_of_succ_lt_succ hlt⟩ from rfl]
        at hmatch ⊢
      exact ih i (Nat.lt_of_succ_lt_succ hlt) hmatch
        (fun r' hr' => hbefore r' (by rw [List.take_succ_cons]; exact List.mem_cons_of_mem r hr'))

/-- Whatever `rules.find` returns sits at some index `i`, matches, and every
rule before index `i` fails to match. -/
theorem findRule_some (rules : List Rule) (m : Message) (sc : SlackClient) (r : Rule)
    (h : findRule rules m sc = Except.ok (some r)) :
    ∃ i, ∃ hlt : i < rules.length, rules.get ⟨i, hlt⟩ = r ∧
      Rule.«match» r m sc = Except.ok true ∧
      ∀ r' ∈ rules.take i, Rule.«match» r' m sc = Except.ok false := by
  induction rules with
  | nil => exact absurd h (by rw [findRule]; exact fun hc => by cases hc)
  | cons r0 rest ih =>
    rw [findRule] at h
    cases hm : Rule.«match» r0 m sc with
    | error e => rw [hm] at h; cases h
    | ok b =>
      cases b
      · rw [hm] at h
        obtain ⟨i, hlt, hget, htrue, hbef⟩ := ih h
        refine ⟨i + 1, Nat.succ_lt_succ hlt, hget, htrue, ?_⟩
        intro r' hr'
        rw [List.take_succ_cons] at hr'
        rcases List.mem_cons.mp hr' with hr' | hr'
        · rw [hr']; exact hm
        · exact hbef r' hr'
      · rw [hm] at h
        have hr0 : r0 = r := by
          have := h
          injection this with h1
          injection h1
        refine ⟨0, Nat.succ_pos rest.length, hr0, hr0 ▸ hm, ?_⟩
        intro r' hr'
        rw [List.take_zero] at hr'
        cases hr'

/-- With the guard satisfied, `findMatchingRule` reduces to the rule scan. -/
theorem findMatchingRule_eq_findRule (mw : Middleware) (m : Message) (it : Item)
    (htype : m.type = some SlackClient.REACTION_ADDED)
    (hitem : m.item = some it) (hmsg : it.type = some "message") :
    mw.findMatchingRule (some m) = findRule mw.rules m mw.slackClient := by
  simp [Middleware.findMatchingRule, htype, hitem, hmsg]

/-! ### Claim theorems -/

/-- C1: for a message passing the `reaction_added`/`message` guard,
`findMatchingRule` returns exactly the first rule in configured order whose
`match` succeeds: (a) a returned rule matches and every rule before it in the
list fails to match, (b) the rule at the first matching index is the one
returned, and (c) when no rule matches, `none` is returned. -/
theorem findMatchingRule_first_match (mw : Middleware) (m : Message) (it : Item)
    (htype : m.type = some SlackClient.REACTION_ADDED)
    (hitem : m.item = some it) (hmsg : it.type = some "message") :
    (∀ r, mw.findMatchingRule (some m) = Except.ok (some r) →
       ∃ i, ∃ hlt : i < mw.rules.length, mw.rules.get ⟨i, hlt⟩ = r ∧
         Rule.«match» r m mw.slackClient = Except.ok true ∧
         ∀ r' ∈ mw.rules.take i, Rule.«match» r' m mw.slackClient = Except.ok false) ∧
    (∀ i, ∀ hlt : i < mw.rules.length,
       Rule.«match» (mw.rules.get ⟨i, hlt⟩) m mw.slackClient = Except.ok true →
       (∀ r' ∈ mw.rules.take i, Rule.«match» r' m mw.slackClient = Except.ok false) →
       mw.findMatchingRule (some m) = Except.ok (some (mw.rules.get ⟨i, hlt⟩))) ∧
    ((∀ r ∈ mw.rules, Rule.«match» r m mw.slackClient = Except.ok false) →
       mw.findMatchingRule (some m) = Except.ok none) := by
  have hred := findMatchingRule_eq_findRule mw m it htype hitem hmsg
  refine ⟨?_, ?_, ?_⟩
  · intro r h
    exact findRule_some mw.rules m mw.slackClient r (hred ▸ h)
  · intro i hlt hmatch hbefore
    rw [hred]
    exact findRule_first mw.rules m mw.slackClient i hlt hmatch hbefore
  · intro hnone
    rw [hred]
    exact findRule_eq_none mw.rules m mw.slackClient hnone

/-- Witness for C1: on the two-rule middleware, the message matching the
first rule is resolved to that first rule. -/
theorem findMatchingRule_first_match_witness :
    Middleware.findMatchingRule mwEx (some msgEx) =
      Except.ok (some (mwEx.rules.get ⟨0, by decide⟩)) :=
  (findMatchingRule_first_match mwEx msgEx itemEx rfl rfl rfl).2.1 0 (by decide)
    rfl (by intro r' hr'; simp at hr')

/-- C2: with the message's `item` present, `Rule.match` succeeds iff the
message's reaction equals the rule's `reactionName` and either `channelNames`
is unset or the resolver's name for `item.channel` is a member of
`channelNames`. -/
theorem rule_match_iff (r : Rule) (m : Message) (it : Item) (sc : SlackClient)
    (h : m.item = some it) :
    Rule.«match» r m sc = Except.ok true ↔
      (m.reaction = some r.reactionName ∧
        (r.channelNames = none ∨
          ∃ cs name, r.channelNames = some cs ∧
            sc.getChannelByID it.channel = some name ∧ name ∈ cs)) := by
  cases hre : r.reactionMatches m with
  | false =>
    have hne : ¬ m.reaction = some r.reactionName := by
      simpa [Rule.reactionMatches] using hre
    simp [Rule.«match», hre, hne]
  | true =>
    have heq : m.reaction = some r.reactionName := by
      simpa [Rule.reactionMatches] using hre
    cases hc : r.channelNames with
    | none => simp [Rule.«match», Rule.channelMatches, hre, hc, heq]
    | some cs =>
      cases hg : sc.getChannelByID it.channel with
      | none => simp [Rule.«match», Rule.channelMatches, hre, hc, h, hg, heq]
      | some name =>
        by_cases hmem : name ∈ cs <;>
          simp [Rule.«match», Rule.channelMatches, hre, hc, h, hg, heq, hmem]

/-- Witness for C2: the channel-restricted rule matches a `smiley` reaction
on channel `C1`, which the resolver maps into its `channelNames`. -/
theorem rule_match_iff_witness :
    Rule.«match» ruleEx2
      ⟨some "reaction_added", some "U1", some itemEx, some "smiley", some "100"⟩
      scEx = Except.ok true :=
  (rule_match_iff ruleEx2
      ⟨some "reaction_added", some "U1", some itemEx, some "smiley", some "100"⟩
      itemEx scEx rfl).mpr
    ⟨rfl, Or.inr ⟨["general"], "general", rfl, rfl, by simp⟩⟩

/-- C3: `findMatchingRule` returns `none` for a missing message, for any
message whose `type` is not `reaction_added`, and for any message whose
`item.type` is not `message` — independently of the configured rules, so no
rule's `match` is consulted. -/
theorem findMatchingRule_guard (mw : Middleware) :
    mw.findMatchingRule none = Except.ok none ∧
    (∀ m : Message, m.type ≠ some SlackClient.REACTION_ADDED →
      mw.findMatchingRule (some m) = Except.ok none) ∧
    (∀ (m : Message) (it : Item), m.item = some it → it.type ≠ some "message" →
      mw.findMatchingRule (some m) = Except.ok none) := by
  refine ⟨rfl, ?_, ?_⟩
  · intro m hm
    simp [Middleware.findMatchingRule, hm]
  · intro m it hit hty
    by_cases hm : m.type = some SlackClient.REACTION_ADDED <;>
      simp [Middleware.findMatchingRule, hm, hit, hty]

/-- Witness for C3: a `reaction_added` message about a `file` item yields no
rule even though its reaction matches a configured rule. -/
theorem findMatchingRule_guard_witness :
    Middleware.findMatchingRule mwEx (some msgFileEx) = Except.ok none :=
  (findMatchingRule_guard mwEx).2.2 msgFileEx itemFileEx rfl (by decide)

/-- C6: when the rule carries a channel restriction and the resolver's lookup
of the message's channel id yields not-found, `Rule.match` returns `false`
as an ordinary result — not an error. -/
theorem rule_match_not_found (r : Rule) (m : Message) (it : Item)
    (cs : List String) (sc : SlackClient)
    (hit : m.item = some it) (hcs : r.channelNames = some cs)
    (hres : sc.getChannelByID it.channel = none) :
    Rule.«match» r m sc = Except.ok false := by
  cases hre : r.reactionMatches m <;>
    simp [Rule.«match», Rule.channelMatches, hre, hcs, hit, hres]

/-- Witness for C6: the `smiley` rule does not match a `smiley` reaction on
the channel `C999` that the resolver does not know. -/
theorem rule_match_not_found_witness :
    Rule.«match» ruleEx2 msgLostEx scEx = Except.ok false :=
  rule_match_not_found ruleEx2 msgLostEx itemLostEx ["general"] scEx rfl rfl rfl

/-- C10: a rule without a `channelNames` restriction: `channelMatches` is
`true` for every message, the result of `match` does not depend on the
resolver at all, and `match` is decided by the reaction comparison alone —
even for a message with no `item` field. -/
theorem channel_unrestricted (r : Rule) (hnone : r.channelNames = none) :
    (∀ (m : Message) (sc : SlackClient),
      Rule.channelMatches r m sc = Except.ok true) ∧
    (∀ (m : Message) (sc sc' : SlackClient),
      Rule.«match» r m sc = Rule.«match» r m sc') ∧
    (∀ (m : Message) (sc : SlackClient),
      Rule.«match» r m sc = Except.ok (m.reaction == some r.reactionName)) := by
  have hch : ∀ (m : Message) (sc : SlackClient),
      Rule.channelMatches r m sc = Except.ok true := by
    intro m sc
    simp [Rule.channelMatches, hnone]
  refine ⟨hch, ?_, ?_⟩
  · intro m sc sc'
    cases hre : r.reactionMatches m <;> simp [Rule.«match», hre, hch]
  · intro m sc
    cases hre : r.reactionMatches m <;>
      simpa [Rule.«match», hre, hch] using (by simpa [Rule.reactionMatches] using hre.symm)

/-- Witness for C10: the unrestricted rule matches a message that has no
`item` field at all, under a resolver that never finds a channel. -/
theorem channel_unrestricted_witness :
    Rule.«match» ruleEx1 malformedEx ⟨fun _ => none⟩ = Except.ok true :=
  (channel_unrestricted ruleEx1 rfl).2.2 malformedEx ⟨fun _ => none⟩

/-! ### Helper lemmas for the constructor copy and the state-passing forms -/

/-- Reading back the property just written yields the written value. -/
theorem getProp_setProp_self (obj : JsObj) (k : String) (v : JsValue) :
    getProp (setProp obj k v) k = some v := by
  induction obj with
  | nil => simp [setProp, getProp]
  | cons p rest ih =>
    by_cases hp : p.1 = k
    · simp [setProp, getProp, hp]
    · simpa [setProp, getProp, hp] using ih

/-- Reading a property whose key heads the object yields the head value. -/
theorem getProp_cons_self (p : String × JsValue) (rest : JsObj) (k : String)
    (h : p.1 = k) : getProp (p :: rest) k = some p.2 := by
  simp [getProp, List.find?, h]

/-- Reading a property whose key differs from the head skips the head. -/
theorem getProp_cons_ne (p : String × JsValue) (rest : JsObj) (k : String)
    (h : ¬ p.1 = k) : getProp (p :: rest) k = getProp rest k := by
  simp [getProp, List.find?, beq_eq_false_iff_ne.mpr h]

/-- Writing one property leaves every other property unchanged. -/
theorem getProp_setProp_ne (obj : JsObj) (k k' : String) (v : JsValue)
    (h : k ≠ k') : getProp (setProp obj k' v) k = getProp obj k := by
  induction obj with
  | nil =>
    rw [setProp, getProp_cons_ne (k', v) [] k (fun hk => h hk.symm)]
  | cons p rest ih =>
    rw [setProp]
    by_cases hp : p.1 = k'
    · rw [if_pos (by simpa using hp)]
      rw [getProp_cons_ne (k', v) rest k (fun hk => h hk.symm)]
      rw [getProp_cons_ne p rest k (fun hk => h (hp.symm.trans hk).symm)]
    · rw [if_neg (by simpa using hp)]
      by_cases hk : p.1 = k
      · rw [getProp_cons_self p (setProp rest k' v) k hk,
          getProp_cons_self p rest k hk]
      · rw [getProp_cons_ne p (setProp rest k' v) k hk,
          getProp_cons_ne p rest k hk]
        exact ih

/-- A property not among an object's keys reads as absent. -/
theorem getProp_eq_none (obj : JsObj) (k : String)
    (h : k ∉ obj.map Prod.fst) : getProp obj k = none := by
  induction obj with
  | nil => rfl
  | cons p rest ih =>
    rw [List.map_cons, List.mem_cons, not_or] at h
    simp only [getProp, List.find?]
    rw [show (p.1 == k) = false from beq_eq_false_iff_ne.mpr (fun hk => h.1 hk.symm)]
    exact ih h.2

/-- Folding the property-copy loop over a source with distinct keys: each
property of the source ends up in the target, and properties the source does
not mention keep their prior value. -/
theorem getProp_copy_loop (l : JsObj) (acc : JsObj) (k : String)
    (hnd : (l.map Prod.fst).Nodup) :
    getProp (l.foldl (fun this p => setProp this p.1 p.2) acc) k =
      (getProp l k).elim (getProp acc k) some := by
  induction l generalizing acc with
  | nil => rfl
  | cons p rest ih =>
    rw [List.map_cons, List.nodup_cons] at hnd
    rw [List.foldl_cons, ih (setProp acc p.1 p.2) hnd.2]
    by_cases hk : p.1 = k
    · subst hk
      rw [getProp_eq_none rest p.1 hnd.1, getProp_cons_self p rest p.1 rfl]
      simp [Option.elim, getProp_setProp_self]
    · rw [getProp_setProp_ne acc k p.1 p.2 (fun h => hk h.symm)]
      rw [getProp_cons_ne p rest k hk]

/-- C8: the `Rule` constructor is a pure pass-through — every property of the
configuration object (its keys being distinct, as JS object keys are) reads
back from the constructed rule object with the very same value; in particular
`reactionName`, `channelNames` and any other configured field. -/
theorem rule_new_pass_through (configRule : JsObj)
    (hnd : (configRule.map Prod.fst).Nodup) :
    ∀ property : String,
      getProp (Rule.new configRule) property = getProp configRule property := by
  intro k
  rw [Rule.new, getProp_copy_loop configRule [] k hnd]
  cases h : getProp configRule k <;> simp [getProp]

/-- Witness for C8: a three-field configuration rule, read back field by
field after construction. -/
theorem rule_new_pass_through_witness :
    getProp
        (Rule.new
          [("reactionName", JsValue.str "evergreen_tree"),
           ("githubRepository", JsValue.str "handbook"),
           ("channelNames", JsValue.strList ["hub"])])
        "channelNames" =
      some (JsValue.strList ["hub"]) :=
  (rule_new_pass_through
      [("reactionName", JsValue.str "evergreen_tree"),
       ("githubRepository", JsValue.str "handbook"),
       ("channelNames", JsValue.strList ["hub"])]
      (by decide) "channelNames").trans (by rfl)

/-- The state-passing `match` returns the pure result and leaves the rule and
the message exactly as they were. -/
theorem matchS_pure (r : Rule) (m : Message) (sc : SlackClient) :
    Rule.matchS r m sc = (Rule.«match» r m sc, r, m) := by
  cases hre : r.reactionMatches m <;>
    simp [Rule.matchS, Rule.reactionMatchesS, Rule.channelMatchesS, Rule.«match», hre]

/-- The state-passing rule scan returns the pure result and leaves the rule
list and the message exactly as they were. -/
theorem findRuleS_pure (rules : List Rule) (m : Message) (sc : SlackClient) :
    findRuleS rules m sc = (findRule rules m sc, rules, m) := by
  induction rules with
  | nil => rfl
  | cons r rest ih =>
    rw [findRuleS, matchS_pure]
    cases hm : Rule.«match» r m sc with
    | error e => simp [findRule, hm]
    | ok b => cases b <;> simp [findRule, hm, ih]

/-- C9: the matching operations are pure — threading the objects through
every statement of `findMatchingRule` (and through each rule's `match`,
`reactionMatches`, `channelMatches` inside the scan) returns the middleware
with its rule list, and the message, exactly as they were before the call,
alongside the pure result. -/
theorem matching_operations_pure (mw : Middleware) (msg : Option Message) :
    Middleware.findMatchingRuleS mw msg = (mw.findMatchingRule msg, mw, msg) ∧
    (∀ (r : Rule) (m : Message) (sc : SlackClient),
      Rule.matchS r m sc = (Rule.«match» r m sc, r, m)) ∧
    (∀ (r : Rule) (m : Message),
      Rule.reactionMatchesS r m = (Rule.reactionMatches r m, r, m)) ∧
    (∀ (r : Rule) (m : Message) (sc : SlackClient),
      Rule.channelMatchesS r m sc = (Rule.channelMatches r m sc, r, m)) := by
  refine ⟨?_, fun r m sc => matchS_pure r m sc, fun r m => rfl, fun r m sc => rfl⟩
  cases msg with
  | none => rfl
  | some m =>
    by_cases ht : m.type = some SlackClient.REACTION_ADDED
    · cases hi : m.item with
      | none => simp [Middleware.findMatchingRuleS, Middleware.findMatchingRule, ht, hi]
      | some item =>
        by_cases hty : item.type = some "message"
        · simp [Middleware.findMatchingRuleS, Middleware.findMatchingRule,
            ht, hi, hty, findRuleS_pure]
        · simp [Middleware.findMatchingRuleS, Middleware.findMatchingRule, ht, hi, hty]
    · simp [Middleware.findMatchingRuleS, Middleware.findMatchingRule, ht]

/-- C4: idempotent short-circuit of `execute` — when a rule matches and the
reactions already on the message include the configured success reaction,
`execute` signals handled after only the reactions query: it files no issue
and adds no reaction. A second delivery of an already-processed event is
exactly this situation, so the second call performs neither action. -/
theorem execute_idempotent_short_circuit (mw : Middleware) (msg : Option Message)
    (env : Env) (r : Rule) (reactions : List String)
    (hrule : mw.findMatchingRule msg = Except.ok (some r))
    (hget : env.getReactions = Except.ok reactions)
    (hdone : mw.successReaction ∈ reactions) :
    mw.execute msg env = (Outcome.handled, [ExtCall.getReactions]) ∧
    ExtCall.fileIssue ∉ (mw.execute msg env).2 ∧
    ExtCall.addReaction ∉ (mw.execute msg env).2 := by
  have hrun : mw.execute msg env = (Outcome.handled, [ExtCall.getReactions]) := by
    simp [Middleware.execute, hrule, hget, hdone]
  refine ⟨hrun, ?_, ?_⟩ <;> rw [hrun] <;> decide

/-- Witness for C4: the matching event whose message already carries
`heavy_check_mark` is handled with only the reactions query performed. -/
theorem execute_idempotent_short_circuit_witness :
    Middleware.execute mwEx (some msgEx) envDoneEx =
      (Outcome.handled, [ExtCall.getReactions]) :=
  (execute_idempotent_short_circuit mwEx (some msgEx) envDoneEx ruleEx1
    ["heavy_check_mark"] rfl rfl (by decide)).1

/-- C5 counterexample: `findMatchingRule` does throw on an event missing a
required field — a message with `type = "reaction_added"` but no `item`
raises a `TypeError` (from reading `message.item.type`) instead of being
treated as a non-match. -/
theorem findMatchingRule_missing_item_throws :
    Middleware.findMatchingRule mwEx (some malformedEx) =
      Except.error JsError.typeError ∧
    ¬ Middleware.findMatchingRule mwEx (some malformedEx) = Except.ok none := by
  refine ⟨rfl, ?_⟩
  intro h
  exact Except.noConfusion
    ((rfl : Middleware.findMatchingRule mwEx (some malformedEx) =
        Except.error JsError.typeError).symm.trans h)

/-- C5 (amended): a null event, and an event whose `type` field is missing or
different from `reaction_added`, are treated as non-matches and return none
without an error; but an event whose `type` is `reaction_added` and whose
`item` field is absent makes `findMatchingRule` throw a `TypeError`. -/
theorem findMatchingRule_malformed (mw : Middleware) :
    mw.findMatchingRule none = Except.ok none ∧
    (∀ m : Message, m.type ≠ some SlackClient.REACTION_ADDED →
      mw.findMatchingRule (some m) = Except.ok none) ∧
    (∀ m : Message, m.type = some SlackClient.REACTION_ADDED → m.item = none →
      mw.findMatchingRule (some m) = Except.error JsError.typeError) := by
  refine ⟨rfl, ?_, ?_⟩
  · intro m hm
    simp [Middleware.findMatchingRule, hm]
  · intro m hm hi
    simp [Middleware.findMatchingRule, hm, hi]

/-- Witness for C5 (amended): a null event and an event with a plain
`message` type both yield none without error. -/
theorem findMatchingRule_malformed_witness :
    Middleware.findMatchingRule mwEx none = Except.ok none ∧
    Middleware.findMatchingRule mwEx
        (some ⟨some "message", none, none, none, none⟩) = Except.ok none :=
  ⟨(findMatchingRule_malformed mwEx).1,
    (findMatchingRule_malformed mwEx).2.1
      ⟨some "message", none, none, none, none⟩ (by decide)⟩

/-- C7: once a rule matched, each external collaborator failure aborts every
remaining step and is surfaced to the caller unmodified; the performed-call
list stops at the failing call and contains each call at most once (no
retry). -/
theorem execute_failure_propagation (mw : Middleware) (msg : Option Message)
    (env : Env) (r : Rule) (e : String)
    (hrule : mw.findMatchingRule msg = Except.ok (some r)) :
    (env.getReactions = Except.error e →
      mw.execute msg env = (Outcome.failed e, [ExtCall.getReactions])) ∧
    (∀ reactions, env.getReactions = Except.ok reactions →
      mw.successReaction ∉ reactions → env.fileIssue = Except.error e →
      mw.execute msg env =
        (Outcome.failed e, [ExtCall.getReactions, ExtCall.fileIssue])) ∧
    (∀ reactions link, env.getReactions = Except.ok reactions →
      mw.successReaction ∉ reactions → env.fileIssue = Except.ok link →
      env.addReaction = Except.error e →
      mw.execute msg env =
        (Outcome.failed e,
          [ExtCall.getReactions, ExtCall.fileIssue, ExtCall.addReaction])) ∧
    (∀ reactions link, env.getReactions = Except.ok reactions →
      mw.successReaction ∉ reactions → env.fileIssue = Except.ok link →
      env.addReaction = Except.ok () → env.postMessage = Except.error e →
      mw.execute msg env =
        (Outcome.failed e,
          [ExtCall.getReactions, ExtCall.fileIssue, ExtCall.addReaction,
            ExtCall.postMessage])) := by
  refine ⟨?_, ?_, ?_, ?_⟩
  · intro hget
    simp [Middleware.execute, hrule, hget]
  · intro reactions hget hnot hfile
    simp [Middleware.execute, hrule, hget, hnot, hfile]
  · intro reactions link hget hnot hfile hadd
    simp [Middleware.execute, hrule, hget, hnot, hfile, hadd]
  · intro reactions link hget hnot hfile hadd hpost
    simp [Middleware.execute, hrule, hget, hnot, hfile, hadd, hpost]

/-- Witness for C7: a failing reactions query surfaces its message `boom`
with no further call performed. -/
theorem execute_failure_propagation_witness :
    Middleware.execute mwEx (some msgEx) envFailEx =
      (Outcome.failed "boom", [ExtCall.getReactions]) :=
  (execute_failure_propagation mwEx (some msgEx) envFailEx ruleEx1 "boom" rfl).1 rfl
